import Mathlib

deriving instance DecidableEq for Except

/-!
# Verification of `containerd-shim-spin` layer composition pipeline

Shallow embedding of `src/containerd-shim-spin/src/layers.rs`: the pipeline that
locates a Spin application manifest among OCI layers, composes and precompiles
each component, rewrites the manifest, and emits provenance-tagged output layers.

Bytes are modelled as `List Nat`; the `BTreeSet<usize>` of provenance indices as
a strictly sorted `List Nat` (insertion by `btreeInsert`, matching the ordered,
duplicate-free iteration of a B-tree set); fallible Rust functions return
`Except`.  External collaborators
that are not part of this repository (the JSON codec for `LockedApp`, the
`wasmtime` precompiler, the sha256 hex digest, and the linking step of
`spin_compose`) are fields of an `Engines` record, so every theorem is
quantified over their behaviour; the parts of their behaviour the pipeline
relies on (which loader calls `spin_compose::compose` makes, and the
`componentize_if_necessary` normalizer) are modelled from the spec.
-/

/-- `crate::constants::OCI_LAYER_MEDIA_TYPE_WASM`.  Modelled from the spec:
the constants module is not under `src/`; only exact-string-equality matching
matters, per spec §6 ("Matching is exact string equality"). -/
def OCI_LAYER_MEDIA_TYPE_WASM : String := "application/vnd.wasm.content.layer.v1+wasm"

/-- `spin_oci::client::SPIN_APPLICATION_MEDIA_TYPE` (external crate constant):
the media-type tag designating the manifest layer. -/
def SPIN_APPLICATION_MEDIA_TYPE : String := "application/vnd.fermyon.spin.application.v1+config"

/-- A `containerd_shim_wasm::sandbox::WasmLayer`: an input layer with its OCI
config descriptor (of which the pipeline reads the media type and the digest)
and its raw bytes (`layer`). -/
structure WasmLayer where
  mediaType : String
  digest : String
  layer : List Nat
deriving DecidableEq, Repr

/-- `spin_app::locked::LockedComponentSource` content: an optional content
digest (`source.content.digest` in the Rust code). -/
structure LockedComponentSource where
  digest : Option String
deriving DecidableEq, Repr

/-- A `spin_app::locked::LockedComponent`: id, source reference, and named
dependency bindings (each binding resolves to another source reference). -/
structure LockedComponent where
  id : String
  source : LockedComponentSource
  dependencies : List (String × LockedComponentSource)
deriving DecidableEq, Repr

/-- `spin_app::locked::LockedApp`: the decoded manifest, an ordered sequence of
components (the only field this pipeline touches). -/
structure LockedApp where
  components : List LockedComponent
deriving DecidableEq, Repr

/-- `containerd_shim_wasm::container::PrecompiledLayer`: an output layer with a
media type, bytes, and the provenance set of input-layer indices (`parents`). -/
structure PrecompiledLayer where
  media_type : String
  bytes : List Nat
  parents : List Nat
deriving DecidableEq, Repr

/-- Errors arising inside `spin_compose::compose` (all surfaced through
`anyhow` with the "failed to resolve dependencies for component" context in the
Rust code). -/
inductive ComposeError where
  | missingDigest
  | digestNotFound
  | linkFailed (msg : String)
deriving DecidableEq, Repr

/-- The error kinds of the whole pipeline (`anyhow::Error` values in the Rust
code, distinguished here by their source). -/
inductive PipelineError where
  | manifestNotFound
  | manifestDecodeError (msg : String)
  | compositionError (componentId : String) (e : ComposeError)
  | precompilationError (msg : String)
deriving DecidableEq, Repr

/-- The behaviour of the external engines the pipeline is handed: the
`LockedApp` JSON codec, the linking step of the composition engine, the
`wasmtime` precompiler, and the sha256 hex digest.  All are external
collaborators (spec §1); theorems quantify over an arbitrary `Engines`. -/
structure Engines where
  decodeApp : List Nat → Except String LockedApp
  encodeApp : LockedApp → List Nat
  link : List Nat → List (String × List Nat) → Except String (List Nat)
  precompile : List Nat → Except String (List Nat)
  sha256hex : List Nat → String

/-- `find_spin_app_layer` (layers.rs:71-81): first layer whose media type is
the Spin application media type, together with its index. -/
def find_spin_app_layer : List WasmLayer → Option (Nat × WasmLayer)
  | [] => none
  | l :: rest =>
    if l.mediaType = SPIN_APPLICATION_MEDIA_TYPE then some (0, l)
    else
      match find_spin_app_layer rest with
      | some (i, l') => some (i + 1, l')
      | none => none

/-- `locked_app_from_layers` (layers.rs:64-69): locate the Spin layer and
decode it into a `LockedApp`; the index of the manifest layer is returned
alongside. -/
def locked_app_from_layers (eng : Engines) (layers : List WasmLayer) :
    Except PipelineError (Nat × LockedApp) :=
  match find_spin_app_layer layers with
  | none => .error .manifestNotFound
  | some (i, l) =>
    match eng.decodeApp l.layer with
    | .error m => .error (.manifestDecodeError m)
    | .ok app => .ok (i, app)

/-- `ComponentSourceLoader::find_layer_by_digest` (layers.rs:89-96): linear
scan for the first layer whose digest equals the requested digest. -/
def find_layer_by_digest : List WasmLayer → String → Option (Nat × WasmLayer)
  | [], _ => none
  | l :: rest, d =>
    if l.digest = d then some (0, l)
    else
      match find_layer_by_digest rest d with
      | some (i, l') => some (i + 1, l')
      | none => none

/-- Modelled from the spec: `spin_componentize::componentize_if_necessary` (the
Source Normalizer, an external collaborator not under `src/`).  Per spec §4.3 it
promotes raw-module bytes to the composable (component) encoding only when
needed, distinguishing the two forms by the encoding header, and is a no-op on
bytes already in component form.  The component-form header is the wasm
preamble with the component layer/version field. -/
def isComponentEncoded (bs : List Nat) : Bool :=
  decide (bs.take 8 = [0, 97, 115, 109, 13, 0, 1, 0])

/-- Modelled from the spec: wrapping raw-module bytes into the composable
(component) encoding; the result carries the component-form header. -/
def encodeAsComponent (bs : List Nat) : List Nat :=
  [0, 97, 115, 109, 13, 0, 1, 0] ++ bs

/-- Modelled from the spec: the Source Normalizer itself — identity on bytes
already in component form, otherwise the component wrapping. -/
def componentize_if_necessary (bs : List Nat) : Except ComposeError (List Nat) :=
  if isComponentEncoded bs then .ok bs else .ok (encodeAsComponent bs)

/-- Ordered-set insertion, modelling `BTreeSet<usize>::insert`: the provenance
set is kept as a strictly sorted list of indices, and inserting an element
already present is a no-op. -/
def btreeInsert (i : Nat) : List Nat → List Nat
  | [] => [i]
  | j :: rest =>
    if i < j then i :: j :: rest
    else if i = j then j :: rest
    else j :: btreeInsert i rest

/-- `ComponentSourceLoader::load_component_source` (layers.rs:108-128), with
the loader's mutable `parents : Arc<Mutex<BTreeSet<usize>>>` threaded
explicitly: fail if the source has no digest; scan the layers for the digest,
failing if absent; normalize the found layer's bytes; record the found index in
the parents set. -/
def load_component_source (layers : List WasmLayer) (parents : List Nat)
    (source : LockedComponentSource) : Except ComposeError (List Nat × List Nat) :=
  match source.digest with
  | none => .error .missingDigest
  | some d =>
    match find_layer_by_digest layers d with
    | none => .error .digestNotFound
    | some (idx, l) =>
      match componentize_if_necessary l.layer with
      | .error e => .error e
      | .ok component => .ok (component, btreeInsert idx parents)

/-- Modelled from the spec: the dependency-resolution order of
`spin_compose::compose` — each declared dependency binding is resolved through
the injected loader (spec §4.3-§4.4), accumulating the provenance set. -/
def loadDependencies (layers : List WasmLayer) :
    List (String × LockedComponentSource) → List Nat →
    Except ComposeError (List (String × List Nat) × List Nat)
  | [], parents => .ok ([], parents)
  | (name, src) :: rest, parents =>
    match load_component_source layers parents src with
    | .error e => .error e
    | .ok (bytes, parents') =>
      match loadDependencies layers rest parents' with
      | .error e => .error e
      | .ok (bs, parents'') => .ok ((name, bytes) :: bs, parents'')

/-- Modelled from the spec: `spin_compose::compose` (external collaborator, spec
§4.4) — resolves the component's own source and every declared dependency
through the injected loader, each resolution recording provenance, then links
the loaded binaries into one flattened binary (the linking step, which may fail
with a composition-level error such as a cycle or unresolved import, is the
engine's `link` function). -/
def compose (eng : Engines) (layers : List WasmLayer) (c : LockedComponent) :
    Except ComposeError (List Nat × List Nat) :=
  match load_component_source layers [] c.source with
  | .error e => .error e
  | .ok (src, parents) =>
    match loadDependencies layers c.dependencies parents with
    | .error e => .error e
    | .ok (deps, parents') =>
      match eng.link src deps with
      | .error m => .error (.linkFailed m)
      | .ok composed => .ok (composed, parents')

/-- One iteration of the loop in `compose_and_precompile` (layers.rs:21-49):
compose the component (fresh loader, hence fresh provenance), precompile the
composed binary, rewrite the component's source digest to the precompiled
digest, clear its dependencies, and emit the component's output layer. -/
def processComponent (eng : Engines) (layers : List WasmLayer) (c : LockedComponent) :
    Except PipelineError (LockedComponent × PrecompiledLayer) :=
  match compose eng layers c with
  | .error e => .error (.compositionError c.id e)
  | .ok (composed, parents) =>
    match eng.precompile composed with
    | .error m => .error (.precompilationError m)
    | .ok precompiled =>
      let precompiled_digest := "sha256:" ++ eng.sha256hex precompiled
      .ok ({ c with source := ⟨some precompiled_digest⟩, dependencies := [] },
           { media_type := OCI_LAYER_MEDIA_TYPE_WASM
             bytes := precompiled
             parents := parents })

/-- The whole `for component in locked_app.components.iter_mut()` loop: the
rewritten components together with the emitted per-component layers, in
manifest order; any failure aborts the loop. -/
def processComponents (eng : Engines) (layers : List WasmLayer) :
    List LockedComponent → Except PipelineError (List LockedComponent × List PrecompiledLayer)
  | [] => .ok ([], [])
  | c :: rest =>
    match processComponent eng layers c with
    | .error e => .error e
    | .ok (c', pl) =>
      match processComponents eng layers rest with
      | .error e => .error e
      | .ok (cs, pls) => .ok (c' :: cs, pl :: pls)

/-- `compose_and_precompile` (layers.rs:16-62): locate and decode the manifest,
process every component, then append the final layer carrying the re-encoded
(rewritten) manifest with the original manifest layer's index as its sole
provenance entry. -/
def compose_and_precompile (eng : Engines) (layers : List WasmLayer) :
    Except PipelineError (List PrecompiledLayer) :=
  match locked_app_from_layers eng layers with
  | .error e => .error e
  | .ok (locked_parent_idx, locked_app) =>
    match processComponents eng layers locked_app.components with
    | .error e => .error e
    | .ok (components', precompiled_layers) =>
      .ok (precompiled_layers ++
        [{ media_type := SPIN_APPLICATION_MEDIA_TYPE
           bytes := eng.encodeApp { locked_app with components := components' }
           parents := [locked_parent_idx] }])

/-- A source reference resolves in the input layer set: it carries a digest and
some input layer has that digest. -/
def resolves (layers : List WasmLayer) (s : LockedComponentSource) : Bool :=
  match s.digest with
  | none => false
  | some d => (find_layer_by_digest layers d).isSome

/-- A concrete manifest used by the witness theorems: one component `main` with
one dependency binding `libfoo`. -/
def demoApp : LockedApp :=
  ⟨[⟨"main", ⟨some "sha256:aaa"⟩, [("libfoo", ⟨some "sha256:bbb"⟩)]⟩]⟩

/-- Concrete engines for the witness theorems: a decoder recognising the demo
manifest bytes, concatenating linker, identity precompiler, constant hash. -/
def demoEng : Engines where
  decodeApp := fun bs => if bs = [9] then .ok demoApp else .error "malformed manifest"
  encodeApp := fun app => (app.components.map (fun c => c.id.length)) ++ [7]
  link := fun src deps => .ok (src ++ (deps.map Prod.snd).flatten)
  precompile := fun b => .ok b
  sha256hex := fun _ => "feedface"

/-- Concrete input layers for the witness theorems: the manifest layer first,
then a component-encoded source layer and a raw-module dependency layer. -/
def demoLayers : List WasmLayer :=
  [⟨SPIN_APPLICATION_MEDIA_TYPE, "sha256:mmm", [9]⟩,
   ⟨"application/wasm", "sha256:aaa", [0, 97, 115, 109, 13, 0, 1, 0, 1]⟩,
   ⟨"application/wasm", "sha256:bbb", [1, 2]⟩]

/-- The composed-and-precompiled bytes of the demo component under `demoEng`:
its own (already component-encoded) source followed by the wrapped raw-module
dependency. -/
def demoComposed : List Nat :=
  [0, 97, 115, 109, 13, 0, 1, 0, 1] ++ encodeAsComponent [1, 2]

/-- The demo component after the pipeline rewrite: precompiled digest in the
source, dependency set cleared. -/
def demoMainRewritten : LockedComponent :=
  ⟨"main", ⟨some "sha256:feedface"⟩, []⟩

/-- The full expected output of the pipeline on the demo input. -/
def demoOut : List PrecompiledLayer :=
  [⟨OCI_LAYER_MEDIA_TYPE_WASM, demoComposed, [1, 2]⟩,
   ⟨SPIN_APPLICATION_MEDIA_TYPE, [4, 7], [0]⟩]

/-- Input layers with a duplicated digest, for the first-match (smallest
index) behaviour of the digest scan. -/
def dupLayers : List WasmLayer :=
  [⟨"application/wasm", "sha256:dup", [1]⟩,
   ⟨"application/wasm", "sha256:dup", [2]⟩]

/-- Input layers where the demo component's dependency digest `sha256:bbb`
is absent. -/
def missingDepLayers : List WasmLayer :=
  [⟨SPIN_APPLICATION_MEDIA_TYPE, "sha256:mmm", [9]⟩,
   ⟨"application/wasm", "sha256:aaa", [0, 97, 115, 109, 13, 0, 1, 0, 1]⟩]

/-- A manifest whose single component has no source digest. -/
def noDigestApp : LockedApp := ⟨[⟨"main", ⟨none⟩, []⟩]⟩

/-- Engines decoding the demo manifest bytes to the digest-less manifest. -/
def noDigestEng : Engines :=
  { demoEng with
      decodeApp := fun bs => if bs = [9] then .ok noDigestApp else .error "malformed manifest" }

/-! ## Characterization of the two linear scans -/

/-- A successful manifest scan returns a layer of the input list carrying the
manifest tag, at the first position carrying it. -/
theorem find_spin_app_layer_some {layers : List WasmLayer} {i : Nat} {l : WasmLayer}
    (h : find_spin_app_layer layers = some (i, l)) :
    layers[i]? = some l ∧ l.mediaType = SPIN_APPLICATION_MEDIA_TYPE ∧
      ∀ j l', j < i → layers[j]? = some l' →
        l'.mediaType ≠ SPIN_APPLICATION_MEDIA_TYPE := by
  induction layers generalizing i with
  | nil => simp [find_spin_app_layer] at h
  | cons a rest ih =>
    by_cases ha : a.mediaType = SPIN_APPLICATION_MEDIA_TYPE
    · simp only [find_spin_app_layer, if_pos ha, Option.some.injEq, Prod.mk.injEq] at h
      obtain ⟨hi, hl⟩ := h
      subst hi; subst hl
      exact ⟨by simp, ha, fun j l' hj _ => absurd hj (Nat.not_lt_zero j)⟩
    · simp only [find_spin_app_layer, if_neg ha] at h
      cases hrest : find_spin_app_layer rest with
      | none => rw [hrest] at h; exact absurd h (by simp)
      | some pair =>
        obtain ⟨i', l''⟩ := pair
        rw [hrest] at h
        simp only [Option.some.injEq, Prod.mk.injEq] at h
        obtain ⟨hi, hl⟩ := h
        subst hl
        obtain ⟨hget, hmt, hfirst⟩ := ih hrest
        subst hi
        refine ⟨by simpa using hget, hmt, ?_⟩
        intro j l' hj hget'
        cases j with
        | zero => simpa using fun hcontra => ha (by rw [← hcontra] at ha ⊢; simp_all)
        | succ j' =>
          exact hfirst j' l' (Nat.lt_of_succ_lt_succ hj) (by simpa using hget')

/-- The manifest scan fails exactly when no input layer carries the manifest
tag. -/
theorem find_spin_app_layer_eq_none_iff {layers : List WasmLayer} :
    find_spin_app_layer layers = none ↔
      ∀ l ∈ layers, l.mediaType ≠ SPIN_APPLICATION_MEDIA_TYPE := by
  induction layers with
  | nil => simp [find_spin_app_layer]
  | cons a rest ih =>
    by_cases ha : a.mediaType = SPIN_APPLICATION_MEDIA_TYPE
    · simp [find_spin_app_layer, ha]
    · constructor
      · intro h l hl
        rcases List.mem_cons.mp hl with hl | hl
        · subst hl; exact ha
        · refine (ih.mp ?_) l hl
          simp only [find_spin_app_layer, if_neg ha] at h
          cases hrest : find_spin_app_layer rest with
          | none => rfl
          | some pair =>
            obtain ⟨i, l'⟩ := pair
            rw [hrest] at h
            exact absurd h (by simp)
      · intro hall
        have hrest : find_spin_app_layer rest = none :=
          ih.mpr (fun l hl => hall l (List.mem_cons_of_mem _ hl))
        simp only [find_spin_app_layer, if_neg ha, hrest]

/-- A successful digest scan returns a layer with the requested digest, at the
first (hence smallest) position carrying it. -/
theorem find_layer_by_digest_some {layers : List WasmLayer} {d : String} {i : Nat}
    {l : WasmLayer} (h : find_layer_by_digest layers d = some (i, l)) :
    layers[i]? = some l ∧ l.digest = d ∧
      ∀ j l', j < i → layers[j]? = some l' → l'.digest ≠ d := by
  induction layers generalizing i with
  | nil => simp [find_layer_by_digest] at h
  | cons a rest ih =>
    by_cases ha : a.digest = d
    · simp only [find_layer_by_digest, if_pos ha, Option.some.injEq, Prod.mk.injEq] at h
      obtain ⟨hi, hl⟩ := h
      subst hi; subst hl
      exact ⟨by simp, ha, fun j l' hj _ => absurd hj (Nat.not_lt_zero j)⟩
    · simp only [find_layer_by_digest, if_neg ha] at h
      cases hrest : find_layer_by_digest rest d with
      | none => rw [hrest] at h; exact absurd h (by simp)
      | some pair =>
        obtain ⟨i', l''⟩ := pair
        rw [hrest] at h
        simp only [Option.some.injEq, Prod.mk.injEq] at h
        obtain ⟨hi, hl⟩ := h
        subst hl
        obtain ⟨hget, hdg, hfirst⟩ := ih hrest
        subst hi
        refine ⟨by simpa using hget, hdg, ?_⟩
        intro j l' hj hget'
        cases j with
        | zero =>
          intro hcontra
          simp only [List.getElem?_cons_zero, Option.some.injEq] at hget'
          subst hget'
          exact ha hcontra
        | succ j' =>
          exact hfirst j' l' (Nat.lt_of_succ_lt_succ hj) (by simpa using hget')

/-- The digest scan fails exactly when no input layer carries the requested
digest. -/
theorem find_layer_by_digest_eq_none_iff {layers : List WasmLayer} {d : String} :
    find_layer_by_digest layers d = none ↔ ∀ l ∈ layers, l.digest ≠ d := by
  induction layers with
  | nil => simp [find_layer_by_digest]
  | cons a rest ih =>
    by_cases ha : a.digest = d
    · simp [find_layer_by_digest, ha]
    · constructor
      · intro h l hl
        rcases List.mem_cons.mp hl with hl | hl
        · subst hl; exact ha
        · refine (ih.mp ?_) l hl
          simp only [find_layer_by_digest, if_neg ha] at h
          cases hrest : find_layer_by_digest rest d with
          | none => rfl
          | some pair =>
            obtain ⟨i, l'⟩ := pair
            rw [hrest] at h
            exact absurd h (by simp)
      · intro hall
        have hrest : find_layer_by_digest rest d = none :=
          ih.mpr (fun l hl => hall l (List.mem_cons_of_mem _ hl))
        simp only [find_layer_by_digest, if_neg ha, hrest]

/-- The digest scan succeeds exactly when some input layer carries the
requested digest. -/
theorem find_layer_by_digest_isSome_iff {layers : List WasmLayer} {d : String} :
    (find_layer_by_digest layers d).isSome = true ↔ ∃ l ∈ layers, l.digest = d := by
  rw [Option.isSome_iff_ne_none, Ne, find_layer_by_digest_eq_none_iff]
  push_neg
  rfl

/-! ## The Source Normalizer -/

/-- The wrapped encoding carries the component-form header. -/
theorem encodeAsComponent_encoded (bs : List Nat) :
    isComponentEncoded (encodeAsComponent bs) = true := by
  simp [isComponentEncoded, encodeAsComponent]

/-- The normalizer is the identity on bytes already in component form. -/
theorem componentize_of_encoded {bs : List Nat} (h : isComponentEncoded bs = true) :
    componentize_if_necessary bs = .ok bs := by
  simp [componentize_if_necessary, h]

/-- Every normalizer output is in component form. -/
theorem componentize_output_encoded {bs b : List Nat}
    (h : componentize_if_necessary bs = .ok b) : isComponentEncoded b = true := by
  unfold componentize_if_necessary at h
  by_cases hb : isComponentEncoded bs = true
  · rw [if_pos hb] at h
    cases h
    exact hb
  · rw [if_neg hb] at h
    cases h
    exact encodeAsComponent_encoded bs

/-- The normalizer never fails in this model. -/
theorem componentize_isOk (bs : List Nat) : ∃ b, componentize_if_necessary bs = .ok b := by
  unfold componentize_if_necessary
  by_cases hb : isComponentEncoded bs = true
  · exact ⟨bs, if_pos hb⟩
  · exact ⟨encodeAsComponent bs, if_neg hb⟩

/-! ## The Dependency Loader Adapter -/

/-- Membership in the ordered provenance set after an insertion. -/
theorem mem_btreeInsert {x i : Nat} {s : List Nat} :
    x ∈ btreeInsert i s ↔ x = i ∨ x ∈ s := by
  induction s with
  | nil => simp [btreeInsert]
  | cons j rest ih =>
    unfold btreeInsert
    by_cases hlt : i < j
    · rw [if_pos hlt]
      simp only [List.mem_cons]
    · rw [if_neg hlt]
      by_cases heq : i = j
      · rw [if_pos heq]
        subst heq
        simp only [List.mem_cons]
        tauto
      · rw [if_neg heq]
        simp only [List.mem_cons, ih]
        tauto

/-- A source reference without a digest fails with the missing-digest error,
whatever the layer list and the current provenance set. -/
theorem load_component_source_no_digest (layers : List WasmLayer) (p : List Nat) :
    load_component_source layers p ⟨none⟩ = .error .missingDigest := rfl

/-- A digest absent from the layer list fails with the digest-not-found
error. -/
theorem load_component_source_notfound {layers : List WasmLayer} {d : String}
    (p : List Nat) (h : find_layer_by_digest layers d = none) :
    load_component_source layers p ⟨some d⟩ = .error .digestNotFound := by
  simp [load_component_source, h]

/-- Full characterization of a successful load: the source carries a digest,
the scan finds the first layer with that digest, the returned bytes are that
layer's normalized bytes, and exactly that layer's index is added to the
provenance set. -/
theorem load_component_source_ok_iff {layers : List WasmLayer} {p : List Nat}
    {s : LockedComponentSource} {b : List Nat} {p' : List Nat} :
    load_component_source layers p s = .ok (b, p') ↔
      ∃ d i l, s.digest = some d ∧ find_layer_by_digest layers d = some (i, l) ∧
        componentize_if_necessary l.layer = .ok b ∧ p' = btreeInsert i p := by
  obtain ⟨dg⟩ := s
  constructor
  · intro h
    cases dg with
    | none => simp [load_component_source] at h
    | some d =>
      cases hf : find_layer_by_digest layers d with
      | none => simp [load_component_source, hf] at h
      | some pair =>
        obtain ⟨i, l⟩ := pair
        cases hc : componentize_if_necessary l.layer with
        | error e => simp [load_component_source, hf, hc] at h
        | ok comp =>
          simp only [load_component_source, hf, hc, Except.ok.injEq, Prod.mk.injEq] at h
          obtain ⟨hb, hp⟩ := h
          exact ⟨d, i, l, rfl, hf, by rw [hc, hb], hp.symm⟩
  · rintro ⟨d, i, l, hd, hf, hc, hp⟩
    subst hp
    simp only [LockedComponentSource.digest] at hd
    subst hd
    simp [load_component_source, hf, hc]

/-- A resolvable source loads successfully. -/
theorem load_component_source_isOk {layers : List WasmLayer} {s : LockedComponentSource}
    (p : List Nat) (h : resolves layers s = true) :
    ∃ b p', load_component_source layers p s = .ok (b, p') := by
  obtain ⟨dg⟩ := s
  cases dg with
  | none => simp [resolves] at h
  | some d =>
    cases hf : find_layer_by_digest layers d with
    | none =>
      simp only [resolves, hf, Option.isSome_none] at h
      exact absurd h (by decide)
    | some pair =>
      obtain ⟨i, l⟩ := pair
      obtain ⟨b, hc⟩ := componentize_isOk l.layer
      exact ⟨b, btreeInsert i p, load_component_source_ok_iff.mpr ⟨d, i, l, rfl, hf, hc, rfl⟩⟩

/-- Loading a dependency list only grows the provenance set. -/
theorem loadDependencies_ok_subset {layers : List WasmLayer}
    {deps : List (String × LockedComponentSource)} {p : List Nat}
    {bs : List (String × List Nat)} {p' : List Nat}
    (h : loadDependencies layers deps p = .ok (bs, p')) : p ⊆ p' := by
  induction deps generalizing p bs with
  | nil =>
    simp only [loadDependencies, Except.ok.injEq, Prod.mk.injEq] at h
    rw [h.2]
    exact fun x hx => hx
  | cons nd rest ih =>
    obtain ⟨name, src⟩ := nd
    simp only [loadDependencies] at h
    cases hl : load_component_source layers p src with
    | error e => rw [hl] at h; exact absurd h (by simp)
    | ok pair =>
      obtain ⟨b1, p1⟩ := pair
      rw [hl] at h
      dsimp only at h
      cases hr : loadDependencies layers rest p1 with
      | error e => rw [hr] at h; exact absurd h (by simp)
      | ok pair' =>
        obtain ⟨bs1, p2⟩ := pair'
        rw [hr] at h
        simp only [Except.ok.injEq, Prod.mk.injEq] at h
        obtain ⟨-, hp⟩ := h
        subst hp
        obtain ⟨d, i, l, -, -, -, hp1⟩ := load_component_source_ok_iff.mp hl
        subst hp1
        exact fun x hx => ih hr (mem_btreeInsert.mpr (Or.inr hx))

/-- Every dependency binding whose digest is found at index `i` contributes
`i` to the resulting provenance set. -/
theorem loadDependencies_ok_mem {layers : List WasmLayer}
    {deps : List (String × LockedComponentSource)} {p : List Nat}
    {bs : List (String × List Nat)} {p' : List Nat}
    (h : loadDependencies layers deps p = .ok (bs, p')) :
    ∀ nd ∈ deps, ∀ d i l, nd.2.digest = some d →
      find_layer_by_digest layers d = some (i, l) → i ∈ p' := by
  induction deps generalizing p bs with
  | nil => intro nd hnd; exact absurd hnd (List.not_mem_nil nd)
  | cons hd rest ih =>
    obtain ⟨name, src⟩ := hd
    simp only [loadDependencies] at h
    cases hl : load_component_source layers p src with
    | error e => rw [hl] at h; exact absurd h (by simp)
    | ok pair =>
      obtain ⟨b1, p1⟩ := pair
      rw [hl] at h
      dsimp only at h
      cases hr : loadDependencies layers rest p1 with
      | error e => rw [hr] at h; exact absurd h (by simp)
      | ok pair' =>
        obtain ⟨bs1, p2⟩ := pair'
        rw [hr] at h
        simp only [Except.ok.injEq, Prod.mk.injEq] at h
        obtain ⟨-, hp⟩ := h
        subst hp
        intro nd hnd d i l hdg hfind
        rcases List.mem_cons.mp hnd with hnd | hnd
        · subst hnd
          obtain ⟨d', i', l', hdg', hfind', -, hp1⟩ := load_component_source_ok_iff.mp hl
          simp only at hdg
          rw [hdg] at hdg'
          cases hdg'
          rw [hfind] at hfind'
          cases hfind'
          subst hp1
          exact loadDependencies_ok_subset hr (mem_btreeInsert.mpr (Or.inl rfl))
        · exact ih hr nd hnd d i l hdg hfind

/-- Every index in the resulting provenance set was already present or was
contributed by one of the dependency bindings of this very list. -/
theorem loadDependencies_ok_sources {layers : List WasmLayer}
    {deps : List (String × LockedComponentSource)} {p : List Nat}
    {bs : List (String × List Nat)} {p' : List Nat}
    (h : loadDependencies layers deps p = .ok (bs, p')) :
    ∀ j ∈ p', j ∈ p ∨ ∃ nd ∈ deps, ∃ d l, nd.2.digest = some d ∧
      find_layer_by_digest layers d = some (j, l) := by
  induction deps generalizing p bs with
  | nil =>
    simp only [loadDependencies, Except.ok.injEq, Prod.mk.injEq] at h
    obtain ⟨-, hp⟩ := h
    subst hp
    exact fun j hj => Or.inl hj
  | cons hd rest ih =>
    obtain ⟨name, src⟩ := hd
    simp only [loadDependencies] at h
    cases hl : load_component_source layers p src with
    | error e => rw [hl] at h; exact absurd h (by simp)
    | ok pair =>
      obtain ⟨b1, p1⟩ := pair
      rw [hl] at h
      dsimp only at h
      cases hr : loadDependencies layers rest p1 with
      | error e => rw [hr] at h; exact absurd h (by simp)
      | ok pair' =>
        obtain ⟨bs1, p2⟩ := pair'
        rw [hr] at h
        simp only [Except.ok.injEq, Prod.mk.injEq] at h
        obtain ⟨-, hp⟩ := h
        subst hp
        intro j hj
        rcases ih hr j hj with hj1 | ⟨nd, hnd, d, l, hdg, hfind⟩
        · obtain ⟨d, i, l, hdg, hfind, -, hp1⟩ := load_component_source_ok_iff.mp hl
          subst hp1
          rcases mem_btreeInsert.mp hj1 with hji | hjp
          · subst hji
            exact Or.inr ⟨(name, src), List.mem_cons_self _ _, d, l, hdg, hfind⟩
          · exact Or.inl hjp
        · exact Or.inr ⟨nd, List.mem_cons_of_mem _ hnd, d, l, hdg, hfind⟩

/-- A dependency list all of whose bindings resolve loads successfully. -/
theorem loadDependencies_isOk {layers : List WasmLayer}
    {deps : List (String × LockedComponentSource)} (p : List Nat)
    (h : ∀ nd ∈ deps, resolves layers nd.2 = true) :
    ∃ bs p', loadDependencies layers deps p = .ok (bs, p') := by
  induction deps generalizing p with
  | nil => exact ⟨[], p, rfl⟩
  | cons hd rest ih =>
    obtain ⟨name, src⟩ := hd
    obtain ⟨b1, p1, hl⟩ := load_component_source_isOk p (h (name, src) (List.mem_cons_self _ _))
    obtain ⟨bs, p', hr⟩ := ih p1 (fun nd hnd => h nd (List.mem_cons_of_mem _ hnd))
    refine ⟨(name, b1) :: bs, p', ?_⟩
    simp only [loadDependencies, hl, hr]

/-! ## The Composition Driver and the per-component loop -/

/-- A successful composition decomposes into: loading the component source
into a fresh provenance set, loading the dependencies, and linking. -/
theorem compose_ok_elim {eng : Engines} {layers : List WasmLayer} {c : LockedComponent}
    {composed : List Nat} {p' : List Nat}
    (h : compose eng layers c = .ok (composed, p')) :
    ∃ src p1 deps, load_component_source layers [] c.source = .ok (src, p1) ∧
      loadDependencies layers c.dependencies p1 = .ok (deps, p') ∧
      eng.link src deps = .ok composed := by
  unfold compose at h
  cases hl : load_component_source layers [] c.source with
  | error e => rw [hl] at h; exact absurd h (by simp)
  | ok pair =>
    obtain ⟨src, p1⟩ := pair
    rw [hl] at h
    dsimp only at h
    cases hr : loadDependencies layers c.dependencies p1 with
    | error e => rw [hr] at h; exact absurd h (by simp)
    | ok pair' =>
      obtain ⟨deps, p2⟩ := pair'
      rw [hr] at h
      dsimp only at h
      cases hk : eng.link src deps with
      | error m => rw [hk] at h; exact absurd h (by simp)
      | ok b =>
        rw [hk] at h
        simp only [Except.ok.injEq, Prod.mk.injEq] at h
        obtain ⟨hb, hp⟩ := h
        subst hb; subst hp
        exact ⟨src, p1, deps, rfl, hr, hk⟩

/-- A component whose source and dependency digests all resolve composes
successfully, provided the linking step accepts the loaded binaries. -/
theorem compose_isOk {eng : Engines} {layers : List WasmLayer} {c : LockedComponent}
    (hs : resolves layers c.source = true)
    (hd : ∀ nd ∈ c.dependencies, resolves layers nd.2 = true)
    (hlink : ∀ s ds, ∃ b, eng.link s ds = .ok b) :
    ∃ composed p', compose eng layers c = .ok (composed, p') := by
  obtain ⟨src, p1, hl⟩ := load_component_source_isOk [] hs
  obtain ⟨deps, p', hr⟩ := loadDependencies_isOk p1 hd
  obtain ⟨b, hk⟩ := hlink src deps
  exact ⟨b, p', by simp only [compose, hl, hr, hk]⟩

/-- A successfully processed component decomposes into composition,
precompilation, the digest rewrite and the dependency clearing. -/
theorem processComponent_ok_elim {eng : Engines} {layers : List WasmLayer}
    {c c' : LockedComponent} {pl : PrecompiledLayer}
    (h : processComponent eng layers c = .ok (c', pl)) :
    ∃ composed precompiled parents,
      compose eng layers c = .ok (composed, parents) ∧
      eng.precompile composed = .ok precompiled ∧
      c' = { c with source := ⟨some ("sha256:" ++ eng.sha256hex precompiled)⟩,
                    dependencies := [] } ∧
      pl = ⟨OCI_LAYER_MEDIA_TYPE_WASM, precompiled, parents⟩ := by
  unfold processComponent at h
  cases hc : compose eng layers c with
  | error e => rw [hc] at h; exact absurd h (by simp)
  | ok pair =>
    obtain ⟨composed, parents⟩ := pair
    rw [hc] at h
    dsimp only at h
    cases hp : eng.precompile composed with
    | error m => rw [hp] at h; exact absurd h (by simp)
    | ok precompiled =>
      rw [hp] at h
      simp only [Except.ok.injEq, Prod.mk.injEq] at h
      obtain ⟨hc', hpl⟩ := h
      exact ⟨composed, precompiled, parents, rfl, hp, hc'.symm, hpl.symm⟩

/-- A component whose digests all resolve is processed successfully, provided
the linker and the precompiler accept their inputs. -/
theorem processComponent_isOk {eng : Engines} {layers : List WasmLayer}
    {c : LockedComponent}
    (hs : resolves layers c.source = true)
    (hd : ∀ nd ∈ c.dependencies, resolves layers nd.2 = true)
    (hlink : ∀ s ds, ∃ b, eng.link s ds = .ok b)
    (hpre : ∀ b, ∃ b', eng.precompile b = .ok b') :
    ∃ r, processComponent eng layers c = .ok r := by
  obtain ⟨composed, p', hc⟩ := compose_isOk hs hd hlink
  obtain ⟨precompiled, hp⟩ := hpre composed
  have h1 : processComponent eng layers c =
      .ok ({ c with
              source := ⟨some ("sha256:" ++ eng.sha256hex precompiled)⟩
              dependencies := [] },
           ⟨OCI_LAYER_MEDIA_TYPE_WASM, precompiled, p'⟩) := by
    simp only [processComponent, hc, hp]
  exact ⟨_, h1⟩

/-- Pointwise characterization of the successful component loop: rewritten
components and emitted layers correspond one-to-one, in order, to the input
components. -/
theorem processComponents_ok_elim {eng : Engines} {layers : List WasmLayer}
    {cs cs' : List LockedComponent} {ps : List PrecompiledLayer}
    (h : processComponents eng layers cs = .ok (cs', ps)) :
    cs'.length = cs.length ∧ ps.length = cs.length ∧
      ∀ (i : Nat) (c : LockedComponent), cs[i]? = some c → ∃ c' pl,
        processComponent eng layers c = .ok (c', pl) ∧
        cs'[i]? = some c' ∧ ps[i]? = some pl := by
  induction cs generalizing cs' ps with
  | nil =>
    simp only [processComponents, Except.ok.injEq, Prod.mk.injEq] at h
    obtain ⟨h1, h2⟩ := h
    subst h1; subst h2
    refine ⟨rfl, rfl, ?_⟩
    intro i c hc
    simp at hc
  | cons c rest ih =>
    simp only [processComponents] at h
    cases hc : processComponent eng layers c with
    | error e => rw [hc] at h; exact absurd h (by simp)
    | ok pair =>
      obtain ⟨c1, pl1⟩ := pair
      rw [hc] at h
      dsimp only at h
      cases hr : processComponents eng layers rest with
      | error e => rw [hr] at h; exact absurd h (by simp)
      | ok pair' =>
        obtain ⟨cs1, ps1⟩ := pair'
        rw [hr] at h
        simp only [Except.ok.injEq, Prod.mk.injEq] at h
        obtain ⟨h1, h2⟩ := h
        subst h1; subst h2
        obtain ⟨hlen1, hlen2, hpoint⟩ := ih hr
        refine ⟨by simp [hlen1], by simp [hlen2], ?_⟩
        intro i c0 hc0
        cases i with
        | zero =>
          simp only [List.getElem?_cons_zero, Option.some.injEq] at hc0
          subst hc0
          exact ⟨c1, pl1, hc, by simp, by simp⟩
        | succ i' =>
          simp only [List.getElem?_cons_succ] at hc0
          obtain ⟨c', pl, h1, h2, h3⟩ := hpoint i' c0 hc0
          exact ⟨c', pl, h1, by simpa using h2, by simpa using h3⟩

/-- If every component processes successfully, so does the whole loop. -/
theorem processComponents_isOk {eng : Engines} {layers : List WasmLayer}
    {cs : List LockedComponent}
    (h : ∀ c ∈ cs, ∃ r, processComponent eng layers c = .ok r) :
    ∃ cs' ps, processComponents eng layers cs = .ok (cs', ps) := by
  induction cs with
  | nil => exact ⟨[], [], rfl⟩
  | cons c rest ih =>
    obtain ⟨⟨c1, pl1⟩, hc⟩ := h c (List.mem_cons_self _ _)
    obtain ⟨cs', ps, hr⟩ := ih (fun c0 hc0 => h c0 (List.mem_cons_of_mem _ hc0))
    exact ⟨c1 :: cs', pl1 :: ps, by simp only [processComponents, hc, hr]⟩

/-! ## The whole pipeline -/

/-- Unfolding of a fully successful pipeline run. -/
theorem compose_and_precompile_eq_ok {eng : Engines} {layers : List WasmLayer}
    {m : Nat} {ml : WasmLayer} {app : LockedApp} {cs' : List LockedComponent}
    {ps : List PrecompiledLayer}
    (hf : find_spin_app_layer layers = some (m, ml))
    (hd : eng.decodeApp ml.layer = .ok app)
    (hp : processComponents eng layers app.components = .ok (cs', ps)) :
    compose_and_precompile eng layers =
      .ok (ps ++ [⟨SPIN_APPLICATION_MEDIA_TYPE,
                   eng.encodeApp { app with components := cs' }, [m]⟩]) := by
  simp only [compose_and_precompile, locked_app_from_layers, hf, hd, hp]

/-- A successful pipeline run decomposes into its stages. -/
theorem compose_and_precompile_ok_elim {eng : Engines} {layers : List WasmLayer}
    {out : List PrecompiledLayer}
    (h : compose_and_precompile eng layers = .ok out) :
    ∃ m ml app cs' ps, find_spin_app_layer layers = some (m, ml) ∧
      eng.decodeApp ml.layer = .ok app ∧
      processComponents eng layers app.components = .ok (cs', ps) ∧
      out = ps ++ [⟨SPIN_APPLICATION_MEDIA_TYPE,
                    eng.encodeApp { app with components := cs' }, [m]⟩] := by
  unfold compose_and_precompile locked_app_from_layers at h
  cases hf : find_spin_app_layer layers with
  | none => rw [hf] at h; exact absurd h (by simp)
  | some pair =>
    obtain ⟨m, ml⟩ := pair
    rw [hf] at h
    dsimp only at h
    cases hd : eng.decodeApp ml.layer with
    | error msg => rw [hd] at h; exact absurd h (by simp)
    | ok app =>
      rw [hd] at h
      dsimp only at h
      cases hp : processComponents eng layers app.components with
      | error e => rw [hp] at h; exact absurd h (by simp)
      | ok pair' =>
        obtain ⟨cs', ps⟩ := pair'
        rw [hp] at h
        simp only [Except.ok.injEq] at h
        exact ⟨m, ml, app, cs', ps, rfl, hd, hp, h.symm⟩

/-- Manifest-location failure aborts the pipeline with the manifest-not-found
error. -/
theorem compose_and_precompile_noManifest {eng : Engines} {layers : List WasmLayer}
    (h : find_spin_app_layer layers = none) :
    compose_and_precompile eng layers = .error .manifestNotFound := by
  simp only [compose_and_precompile, locked_app_from_layers, h]

/-- Manifest-decode failure aborts the pipeline with the decode error. -/
theorem compose_and_precompile_decodeError {eng : Engines} {layers : List WasmLayer}
    {m : Nat} {ml : WasmLayer} {msg : String}
    (hf : find_spin_app_layer layers = some (m, ml))
    (hd : eng.decodeApp ml.layer = .error msg) :
    compose_and_precompile eng layers = .error (.manifestDecodeError msg) := by
  simp only [compose_and_precompile, locked_app_from_layers, hf, hd]

/-- A failing component loop aborts the pipeline with that very error. -/
theorem compose_and_precompile_processError {eng : Engines} {layers : List WasmLayer}
    {m : Nat} {ml : WasmLayer} {app : LockedApp} {e : PipelineError}
    (hf : find_spin_app_layer layers = some (m, ml))
    (hd : eng.decodeApp ml.layer = .ok app)
    (hp : processComponents eng layers app.components = .error e) :
    compose_and_precompile eng layers = .error e := by
  simp only [compose_and_precompile, locked_app_from_layers, hf, hd, hp]

/-! ## Claim theorems -/

/-- C6: the manifest locator returns the index and contents of the first input
layer (in list order) whose media-type tag equals the manifest media type —
so with several manifest-tagged layers the earliest wins — and the pipeline's
manifest stage fails with the manifest-not-found error exactly when no input
layer carries that tag. -/
theorem claim_C6 (layers : List WasmLayer) :
    (∀ (i : Nat) (l : WasmLayer), find_spin_app_layer layers = some (i, l) →
      layers[i]? = some l ∧ l.mediaType = SPIN_APPLICATION_MEDIA_TYPE ∧
        ∀ (j : Nat) (l' : WasmLayer), j < i → layers[j]? = some l' →
          l'.mediaType ≠ SPIN_APPLICATION_MEDIA_TYPE) ∧
    (find_spin_app_layer layers = none ↔
      ∀ l ∈ layers, l.mediaType ≠ SPIN_APPLICATION_MEDIA_TYPE) ∧
    (∀ eng : Engines, find_spin_app_layer layers = none →
      locked_app_from_layers eng layers = .error .manifestNotFound) := by
  refine ⟨fun i l h => find_spin_app_layer_some h, find_spin_app_layer_eq_none_iff, ?_⟩
  intro eng h
  simp only [locked_app_from_layers, h]

/-- Witness for C6: on the demo input the locator returns index 0 with the
manifest layer, and an input with no manifest-tagged layer is rejected. -/
theorem claim_C6_witness :
    (demoLayers[0]? = some ⟨SPIN_APPLICATION_MEDIA_TYPE, "sha256:mmm", [9]⟩ ∧
      (⟨SPIN_APPLICATION_MEDIA_TYPE, "sha256:mmm", [9]⟩ : WasmLayer).mediaType =
        SPIN_APPLICATION_MEDIA_TYPE ∧
      ∀ (j : Nat) (l' : WasmLayer), j < 0 → demoLayers[j]? = some l' →
        l'.mediaType ≠ SPIN_APPLICATION_MEDIA_TYPE) ∧
    locked_app_from_layers demoEng dupLayers = .error .manifestNotFound :=
  ⟨(claim_C6 demoLayers).1 0 ⟨SPIN_APPLICATION_MEDIA_TYPE, "sha256:mmm", [9]⟩ (by decide),
   (claim_C6 dupLayers).2.2 demoEng (by decide)⟩

/-- C4: for every digest requested of the dependency loader — if some input
layer has that digest, the loader returns the first such layer's normalized
bytes and inserts that layer's index into the provenance set; if no input
layer has that digest, the loader fails with the digest-not-found error. -/
theorem claim_C4 (layers : List WasmLayer) (p : List Nat) (d : String) :
    ((∃ l ∈ layers, l.digest = d) →
      ∃ i l b, find_layer_by_digest layers d = some (i, l) ∧ layers[i]? = some l ∧
        l.digest = d ∧ componentize_if_necessary l.layer = .ok b ∧
        load_component_source layers p ⟨some d⟩ = .ok (b, btreeInsert i p)) ∧
    ((∀ l ∈ layers, l.digest ≠ d) →
      load_component_source layers p ⟨some d⟩ = .error .digestNotFound) := by
  constructor
  · intro hex
    have hsome : (find_layer_by_digest layers d).isSome = true :=
      find_layer_by_digest_isSome_iff.mpr hex
    obtain ⟨⟨i, l⟩, hf⟩ := Option.isSome_iff_exists.mp hsome
    obtain ⟨hget, hdg, -⟩ := find_layer_by_digest_some hf
    obtain ⟨b, hc⟩ := componentize_isOk l.layer
    exact ⟨i, l, b, hf, hget, hdg, hc,
      load_component_source_ok_iff.mpr ⟨d, i, l, rfl, hf, hc, rfl⟩⟩
  · intro hall
    exact load_component_source_notfound p (find_layer_by_digest_eq_none_iff.mpr hall)

/-- Witness for C4: on the demo input, digest `sha256:bbb` resolves and the
loader succeeds; digest `sha256:zzz` is absent and the loader fails with the
digest-not-found error. -/
theorem claim_C4_witness :
    (∃ i l b, find_layer_by_digest demoLayers "sha256:bbb" = some (i, l) ∧
      demoLayers[i]? = some l ∧ l.digest = "sha256:bbb" ∧
      componentize_if_necessary l.layer = .ok b ∧
      load_component_source demoLayers [] ⟨some "sha256:bbb"⟩ = .ok (b, btreeInsert i [])) ∧
    load_component_source demoLayers [] ⟨some "sha256:zzz"⟩ = .error .digestNotFound :=
  ⟨(claim_C4 demoLayers [] "sha256:bbb").1 (by decide),
   (claim_C4 demoLayers [] "sha256:zzz").2 (by decide)⟩

/-- C10: when two or more input layers carry the same digest, the loader
resolves that digest to the layer with the smallest index — the scan's result
layer sits at its index, no strictly smaller index carries the digest, the
returned bytes are that layer's normalized bytes, and exactly that smallest
index is recorded (starting from an empty provenance set, the set becomes the
singleton of that index). -/
theorem claim_C10 {layers : List WasmLayer} {d : String} {i : Nat} {l : WasmLayer}
    (h : find_layer_by_digest layers d = some (i, l)) (p : List Nat) :
    layers[i]? = some l ∧ l.digest = d ∧
      (∀ (j : Nat) (l' : WasmLayer), j < i → layers[j]? = some l' → l'.digest ≠ d) ∧
      ∃ b, componentize_if_necessary l.layer = .ok b ∧
        load_component_source layers p ⟨some d⟩ = .ok (b, btreeInsert i p) ∧
        load_component_source layers [] ⟨some d⟩ = .ok (b, [i]) := by
  obtain ⟨hget, hdg, hfirst⟩ := find_layer_by_digest_some h
  obtain ⟨b, hc⟩ := componentize_isOk l.layer
  exact ⟨hget, hdg, hfirst, b, hc,
    load_component_source_ok_iff.mpr ⟨d, i, l, rfl, h, hc, rfl⟩,
    load_component_source_ok_iff.mpr ⟨d, i, l, rfl, h, hc, rfl⟩⟩

/-- Witness for C10: with two layers both carrying digest `sha256:dup`, the
loader resolves to index 0, returns the first layer's normalized bytes, and
records only index 0. -/
theorem claim_C10_witness :
    dupLayers[0]? = some ⟨"application/wasm", "sha256:dup", [1]⟩ ∧
      (⟨"application/wasm", "sha256:dup", [1]⟩ : WasmLayer).digest = "sha256:dup" ∧
      (∀ (j : Nat) (l' : WasmLayer), j < 0 → dupLayers[j]? = some l' →
        l'.digest ≠ "sha256:dup") ∧
      ∃ b, componentize_if_necessary [1] = .ok b ∧
        load_component_source dupLayers [] ⟨some "sha256:dup"⟩ = .ok (b, btreeInsert 0 []) ∧
        load_component_source dupLayers [] ⟨some "sha256:dup"⟩ = .ok (b, [0]) :=
  claim_C10 (by decide) []

/-- C8: the source normalization applied by the loader is idempotent — on
bytes already in composable (component) form it is a byte-identical no-op, and
hence normalizing any normalizer output again returns it unchanged, so
applying normalization twice equals applying it once. -/
theorem claim_C8 :
    (∀ bs : List Nat, isComponentEncoded bs = true →
      componentize_if_necessary bs = .ok bs) ∧
    ∀ bs b : List Nat, componentize_if_necessary bs = .ok b →
      componentize_if_necessary b = .ok b := by
  refine ⟨fun bs h => componentize_of_encoded h, ?_⟩
  intro bs b h
  exact componentize_of_encoded (componentize_output_encoded h)

/-- Witness for C8: a concrete component-form byte string normalizes to
itself, and normalizing the normalization of a raw module is a no-op. -/
theorem claim_C8_witness :
    componentize_if_necessary [0, 97, 115, 109, 13, 0, 1, 0, 5] =
      .ok [0, 97, 115, 109, 13, 0, 1, 0, 5] ∧
    componentize_if_necessary (encodeAsComponent [1, 2]) =
      .ok (encodeAsComponent [1, 2]) :=
  ⟨claim_C8.1 [0, 97, 115, 109, 13, 0, 1, 0, 5] (by decide),
   claim_C8.2 [1, 2] (encodeAsComponent [1, 2]) (by decide)⟩

/-- C9: a component source reference whose digest field is absent makes the
loader fail with the missing-digest error — before any scan of the layer list,
whatever the layers — and a pipeline whose decoded manifest contains such a
component returns an error (hence no output layers). -/
theorem claim_C9 :
    (∀ (layers : List WasmLayer) (p : List Nat),
      load_component_source layers p ⟨none⟩ = .error .missingDigest) ∧
    ∀ (eng : Engines) (layers : List WasmLayer) (m : Nat) (ml : WasmLayer)
      (app : LockedApp) (c : LockedComponent),
      find_spin_app_layer layers = some (m, ml) →
      eng.decodeApp ml.layer = .ok app →
      c ∈ app.components → c.source.digest = none →
      ∃ e, compose_and_precompile eng layers = .error e := by
  refine ⟨fun layers p => rfl, ?_⟩
  intro eng layers m ml app c hf hd hc hnone
  cases hcap : compose_and_precompile eng layers with
  | error e => exact ⟨e, rfl⟩
  | ok out =>
    exfalso
    obtain ⟨m', ml', app', cs', ps, hf', hd', hp, -⟩ :=
      compose_and_precompile_ok_elim hcap
    rw [hf] at hf'
    simp only [Option.some.injEq, Prod.mk.injEq] at hf'
    obtain ⟨hm, hml⟩ := hf'
    subst hml
    rw [hd] at hd'
    simp only [Except.ok.injEq] at hd'
    subst hd'
    obtain ⟨i, hgi⟩ := List.getElem?_of_mem hc
    obtain ⟨-, -, hpoint⟩ := processComponents_ok_elim hp
    obtain ⟨c', pl, hproc, -, -⟩ := hpoint i c hgi
    obtain ⟨composed, precompiled, parents, hcomp, -, -, -⟩ :=
      processComponent_ok_elim hproc
    obtain ⟨src, p1, deps, hload, -, -⟩ := compose_ok_elim hcomp
    obtain ⟨d, i', l', hdg, -, -, -⟩ := load_component_source_ok_iff.mp hload
    rw [hnone] at hdg
    exact absurd hdg (by simp)

/-- Witness for C9: the loader rejects a digest-less source on the demo
layers, and the pipeline errors on a manifest whose only component lacks a
source digest. -/
theorem claim_C9_witness :
    load_component_source demoLayers [] ⟨none⟩ = .error .missingDigest ∧
    ∃ e, compose_and_precompile noDigestEng demoLayers = .error e :=
  ⟨claim_C9.1 demoLayers [],
   claim_C9.2 noDigestEng demoLayers 0 ⟨SPIN_APPLICATION_MEDIA_TYPE, "sha256:mmm", [9]⟩
     noDigestApp ⟨"main", ⟨none⟩, []⟩ (by decide) (by decide) (by decide) rfl⟩

/-- C3: in any successful run of the component loop, every rewritten component
descriptor has an empty dependency set and its source digest is the string
"sha256:" followed by the hex digest of the corresponding precompiled layer's
bytes. -/
theorem claim_C3 {eng : Engines} {layers : List WasmLayer}
    {cs cs' : List LockedComponent} {ps : List PrecompiledLayer}
    (h : processComponents eng layers cs = .ok (cs', ps)) :
    ∀ (i : Nat) (c' : LockedComponent), cs'[i]? = some c' →
      c'.dependencies = [] ∧
      ∃ pl, ps[i]? = some pl ∧
        c'.source.digest = some ("sha256:" ++ eng.sha256hex pl.bytes) := by
  intro i c' hc'
  obtain ⟨hlen1, hlen2, hpoint⟩ := processComponents_ok_elim h
  have hi : i < cs'.length := (List.getElem?_eq_some.mp hc').1
  have hi' : i < cs.length := hlen1 ▸ hi
  obtain ⟨c0, hc0⟩ : ∃ c0, cs[i]? = some c0 := ⟨cs[i], List.getElem?_eq_getElem hi'⟩
  obtain ⟨c1, pl, hproc, hcs, hps⟩ := hpoint i c0 hc0
  rw [hc'] at hcs
  simp only [Option.some.injEq] at hcs
  subst hcs
  obtain ⟨composed, precompiled, parents, -, -, hc1, hpl⟩ := processComponent_ok_elim hproc
  subst hc1
  subst hpl
  exact ⟨rfl, _, hps, rfl⟩

/-- Witness for C3: the demo run rewrites the only component to the
precompiled digest and clears its dependencies. -/
theorem claim_C3_witness :
    demoMainRewritten.dependencies = [] ∧
    ∃ pl, ([⟨OCI_LAYER_MEDIA_TYPE_WASM, demoComposed, [1, 2]⟩] :
        List PrecompiledLayer)[0]? = some pl ∧
      demoMainRewritten.source.digest = some ("sha256:" ++ demoEng.sha256hex pl.bytes) :=
  claim_C3 (by decide : processComponents demoEng demoLayers demoApp.components =
      .ok ([demoMainRewritten], [⟨OCI_LAYER_MEDIA_TYPE_WASM, demoComposed, [1, 2]⟩]))
    0 demoMainRewritten (by decide)

/-- C7: for every successfully processed component, its provenance set only
holds valid input-layer indices; it contains the index resolved for every
dependency binding of that component; and — the loader and its provenance set
being created fresh per component — every recorded index stems from one of
this component's own source references. -/
theorem claim_C7 {eng : Engines} {layers : List WasmLayer} {c c' : LockedComponent}
    {pl : PrecompiledLayer}
    (h : processComponent eng layers c = .ok (c', pl)) :
    (∀ j ∈ pl.parents, j < layers.length) ∧
    (∀ nd ∈ c.dependencies, ∀ (d : String) (j : Nat) (l : WasmLayer),
      nd.2.digest = some d → find_layer_by_digest layers d = some (j, l) →
      j ∈ pl.parents) ∧
    (∀ j ∈ pl.parents,
      ∃ s ∈ c.source :: c.dependencies.map Prod.snd, ∃ d l, s.digest = some d ∧
        find_layer_by_digest layers d = some (j, l)) := by
  obtain ⟨composed, precompiled, parents, hcomp, -, -, hpl⟩ := processComponent_ok_elim h
  subst hpl
  dsimp only
  obtain ⟨src, p1, deps, hload, hdeps, -⟩ := compose_ok_elim hcomp
  obtain ⟨d0, i0, l0, hdg0, hfind0, -, hp1⟩ := load_component_source_ok_iff.mp hload
  subst hp1
  have hsources : ∀ j ∈ parents, ∃ s ∈ c.source :: c.dependencies.map Prod.snd,
      ∃ d l, s.digest = some d ∧ find_layer_by_digest layers d = some (j, l) := by
    intro j hj
    rcases loadDependencies_ok_sources hdeps j hj with hj1 | ⟨nd, hnd, d, l, hdg, hfind⟩
    · rcases mem_btreeInsert.mp hj1 with hji | hjempty
      · subst hji
        exact ⟨c.source, List.mem_cons_self _ _, d0, l0, hdg0, hfind0⟩
      · exact absurd hjempty (List.not_mem_nil j)
    · exact ⟨nd.2, List.mem_cons_of_mem _ (List.mem_map_of_mem Prod.snd hnd),
        d, l, hdg, hfind⟩
  refine ⟨?_, ?_, hsources⟩
  · intro j hj
    obtain ⟨s, -, d, l, -, hfind⟩ := hsources j hj
    exact (List.getElem?_eq_some.mp (find_layer_by_digest_some hfind).1).1
  · intro nd hnd d j l hdg hfind
    exact loadDependencies_ok_mem hdeps nd hnd d j l hdg hfind

/-- Witness for C7: the demo component's provenance set is `[1, 2]` — inside
the input range, holding the dependency's resolved index, and explained
entirely by the component's own references. -/
theorem claim_C7_witness :
    (∀ j ∈ (⟨OCI_LAYER_MEDIA_TYPE_WASM, demoComposed, [1, 2]⟩ :
        PrecompiledLayer).parents, j < demoLayers.length) ∧
    (∀ nd ∈ [("libfoo", (⟨some "sha256:bbb"⟩ : LockedComponentSource))],
      ∀ (d : String) (j : Nat) (l : WasmLayer),
        nd.2.digest = some d → find_layer_by_digest demoLayers d = some (j, l) →
        j ∈ (⟨OCI_LAYER_MEDIA_TYPE_WASM, demoComposed, [1, 2]⟩ :
          PrecompiledLayer).parents) ∧
    (∀ j ∈ (⟨OCI_LAYER_MEDIA_TYPE_WASM, demoComposed, [1, 2]⟩ :
        PrecompiledLayer).parents,
      ∃ s ∈ (⟨some "sha256:aaa"⟩ : LockedComponentSource) ::
          ([("libfoo", (⟨some "sha256:bbb"⟩ : LockedComponentSource))].map Prod.snd),
        ∃ d l, s.digest = some d ∧ find_layer_by_digest demoLayers d = some (j, l)) :=
  claim_C7 (by decide : processComponent demoEng demoLayers
      ⟨"main", ⟨some "sha256:aaa"⟩, [("libfoo", ⟨some "sha256:bbb"⟩)]⟩ =
      .ok (demoMainRewritten, ⟨OCI_LAYER_MEDIA_TYPE_WASM, demoComposed, [1, 2]⟩))

/-- C2: every stage failure — manifest not found, manifest decode failure, or
any failure inside the component loop (missing digest, digest not found,
composition failure, precompilation failure) — makes the pipeline return an
error carrying no layers; conversely a returned layer list always comes from a
fully completed run, never from a partially processed component list. -/
theorem claim_C2 (eng : Engines) (layers : List WasmLayer) :
    (find_spin_app_layer layers = none →
      compose_and_precompile eng layers = .error .manifestNotFound) ∧
    (∀ (m : Nat) (ml : WasmLayer) (msg : String),
      find_spin_app_layer layers = some (m, ml) →
      eng.decodeApp ml.layer = .error msg →
      compose_and_precompile eng layers = .error (.manifestDecodeError msg)) ∧
    (∀ (m : Nat) (ml : WasmLayer) (app : LockedApp) (e : PipelineError),
      find_spin_app_layer layers = some (m, ml) →
      eng.decodeApp ml.layer = .ok app →
      processComponents eng layers app.components = .error e →
      compose_and_precompile eng layers = .error e) ∧
    (∀ out, compose_and_precompile eng layers = .ok out →
      ∃ m ml app cs' ps, find_spin_app_layer layers = some (m, ml) ∧
        eng.decodeApp ml.layer = .ok app ∧
        processComponents eng layers app.components = .ok (cs', ps) ∧
        ps.length = app.components.length ∧
        out = ps ++ [⟨SPIN_APPLICATION_MEDIA_TYPE,
                     eng.encodeApp { app with components := cs' }, [m]⟩]) := by
  refine ⟨compose_and_precompile_noManifest,
    fun m ml msg hf hd => compose_and_precompile_decodeError hf hd,
    fun m ml app e hf hd hp => compose_and_precompile_processError hf hd hp, ?_⟩
  intro out h
  obtain ⟨m, ml, app, cs', ps, hf, hd, hp, hout⟩ := compose_and_precompile_ok_elim h
  obtain ⟨-, hlen, -⟩ := processComponents_ok_elim hp
  exact ⟨m, ml, app, cs', ps, hf, hd, hp, hlen, hout⟩

/-- Witness for C2: with no layers at all the pipeline fails with the
manifest-not-found error, and with the dependency layer removed the pipeline
fails with the digest-not-found composition error and returns no layers. -/
theorem claim_C2_witness :
    compose_and_precompile demoEng [] = .error .manifestNotFound ∧
    compose_and_precompile demoEng missingDepLayers =
      .error (.compositionError "main" .digestNotFound) :=
  ⟨(claim_C2 demoEng []).1 (by decide),
   (claim_C2 demoEng missingDepLayers).2.2.1 0
     ⟨SPIN_APPLICATION_MEDIA_TYPE, "sha256:mmm", [9]⟩ demoApp
     (.compositionError "main" .digestNotFound) (by decide) (by decide) (by decide)⟩

/-- C5: on success, the last output layer carries the manifest media type, its
bytes are the re-encoding of the fully rewritten manifest, and its provenance
set is exactly the singleton of the original manifest layer's index. -/
theorem claim_C5 {eng : Engines} {layers : List WasmLayer} {out : List PrecompiledLayer}
    (h : compose_and_precompile eng layers = .ok out) :
    ∃ m ml app cs' ps, find_spin_app_layer layers = some (m, ml) ∧
      eng.decodeApp ml.layer = .ok app ∧
      processComponents eng layers app.components = .ok (cs', ps) ∧
      out.getLast? = some ⟨SPIN_APPLICATION_MEDIA_TYPE,
        eng.encodeApp { app with components := cs' }, [m]⟩ := by
  obtain ⟨m, ml, app, cs', ps, hf, hd, hp, hout⟩ := compose_and_precompile_ok_elim h
  subst hout
  exact ⟨m, ml, app, cs', ps, hf, hd, hp, by simp⟩

/-- Witness for C5: on the demo run the last output layer is the re-encoded
manifest layer with provenance `[0]`. -/
theorem claim_C5_witness :
    ∃ m ml app cs' ps, find_spin_app_layer demoLayers = some (m, ml) ∧
      demoEng.decodeApp ml.layer = .ok app ∧
      processComponents demoEng demoLayers app.components = .ok (cs', ps) ∧
      demoOut.getLast? = some ⟨SPIN_APPLICATION_MEDIA_TYPE,
        demoEng.encodeApp { app with components := cs' }, [m]⟩ :=
  @claim_C5 demoEng demoLayers demoOut (by decide)

/-- C1: whenever a manifest layer is found and decodes, every component's
source digest and dependency digests resolve within the input layer set, and
the (external) linker and precompiler accept their inputs, the pipeline
succeeds and returns exactly `len(components) + 1` layers: one component layer
per component, first, in manifest order, and the re-encoded manifest layer
last. -/
theorem claim_C1 {eng : Engines} {layers : List WasmLayer} {m : Nat} {ml : WasmLayer}
    {app : LockedApp}
    (hf : find_spin_app_layer layers = some (m, ml))
    (hd : eng.decodeApp ml.layer = .ok app)
    (hres : ∀ c ∈ app.components, resolves layers c.source = true ∧
      ∀ nd ∈ c.dependencies, resolves layers nd.2 = true)
    (hlink : ∀ (s : List Nat) (ds : List (String × List Nat)), ∃ b, eng.link s ds = .ok b)
    (hpre : ∀ b : List Nat, ∃ b', eng.precompile b = .ok b') :
    ∃ cs' ps, processComponents eng layers app.components = .ok (cs', ps) ∧
      compose_and_precompile eng layers =
        .ok (ps ++ [⟨SPIN_APPLICATION_MEDIA_TYPE,
                     eng.encodeApp { app with components := cs' }, [m]⟩]) ∧
      (ps ++ [(⟨SPIN_APPLICATION_MEDIA_TYPE,
               eng.encodeApp { app with components := cs' }, [m]⟩ :
               PrecompiledLayer)]).length = app.components.length + 1 ∧
      ∀ (i : Nat) (c : LockedComponent), app.components[i]? = some c →
        ∃ c' pl, processComponent eng layers c = .ok (c', pl) ∧
          cs'[i]? = some c' ∧ ps[i]? = some pl ∧
          pl.media_type = OCI_LAYER_MEDIA_TYPE_WASM := by
  have hok : ∀ c ∈ app.components, ∃ r, processComponent eng layers c = .ok r := by
    intro c hc
    obtain ⟨hs, hdeps⟩ := hres c hc
    exact processComponent_isOk hs hdeps hlink hpre
  obtain ⟨cs', ps, hp⟩ := processComponents_isOk hok
  obtain ⟨hl1, hl2, hpoint⟩ := processComponents_ok_elim hp
  refine ⟨cs', ps, hp, compose_and_precompile_eq_ok hf hd hp, by simp [hl2], ?_⟩
  intro i c hci
  obtain ⟨c', pl, hproc, hcs, hps⟩ := hpoint i c hci
  obtain ⟨composed, precompiled, parents, -, -, -, hpl⟩ := processComponent_ok_elim hproc
  exact ⟨c', pl, hproc, hcs, hps, by rw [hpl]⟩

/-- Witness for C1: the demo input (one component, one dependency, all digests
resolving) yields exactly two output layers — the component layer, then the
manifest layer. -/
theorem claim_C1_witness :
    ∃ cs' ps, processComponents demoEng demoLayers demoApp.components = .ok (cs', ps) ∧
      compose_and_precompile demoEng demoLayers =
        .ok (ps ++ [⟨SPIN_APPLICATION_MEDIA_TYPE,
                     demoEng.encodeApp { demoApp with components := cs' }, [0]⟩]) ∧
      (ps ++ [(⟨SPIN_APPLICATION_MEDIA_TYPE,
               demoEng.encodeApp { demoApp with components := cs' }, [0]⟩ :
               PrecompiledLayer)]).length = demoApp.components.length + 1 ∧
      ∀ (i : Nat) (c : LockedComponent), demoApp.components[i]? = some c →
        ∃ c' pl, processComponent demoEng demoLayers c = .ok (c', pl) ∧
          cs'[i]? = some c' ∧ ps[i]? = some pl ∧
          pl.media_type = OCI_LAYER_MEDIA_TYPE_WASM :=
  @claim_C1 demoEng demoLayers 0 ⟨SPIN_APPLICATION_MEDIA_TYPE, "sha256:mmm", [9]⟩ demoApp
    (by decide) (by decide) (by decide)
    (fun s ds => ⟨s ++ (ds.map Prod.snd).flatten, rfl⟩) (fun b => ⟨b, rfl⟩)
